import Mathlib

/-!
Verification of the EGB240 Digital Voice Recorder core
(`src/buffer.c`, `src/main.c`, `src/wave.c`, `src/adc.c`).

The circular buffer of `buffer.c` is a 1024-byte array split into two
512-byte pages.  `pHead`/`pTail` are modelled as `Nat` offsets into the
array (`pPage0` = 0, `pPage1` = 512, `pEnd` = 1024); the byte array is
modelled as a total function `Nat → Nat` (writes only ever occur at
offsets below 1024).  The 8/16-bit machine integers of `main.c` are
modelled as `Nat` with explicit `% 2^8` / `% 2^16` where the C code can
wrap.
-/

/-- Cursor/data state of the circular buffer (`samples`, `pHead`, `pTail`
in `buffer.c`). -/
structure Buf where
  data : Nat → Nat
  head : Nat
  tail : Nat

/-- Core of `buffer_queue` (buffer.c:91-100): store the byte at `pHead`,
advance `pHead` with wraparound; the returned flag is true exactly when
the source would invoke `callbackPageFull` (i.e. when the advanced head
equals `pPage1` = 512 or `pEnd` = 1024, the latter wrapping to 0). -/
def queueStep (b : Buf) (w : Nat) : Buf × Bool :=
  let data := fun j => if j = b.head then w else b.data j
  let h := b.head + 1
  if h = 512 then ({ data := data, head := 512, tail := b.tail }, true)
  else if h = 1024 then ({ data := data, head := 0, tail := b.tail }, true)
  else ({ data := data, head := h, tail := b.tail }, false)

/-- Core of `buffer_dequeue` (buffer.c:113-124): load the byte at `pTail`,
advance `pTail` with wraparound; the flag is true exactly when the source
would invoke `callbackPageEmpty`. -/
def dequeueStep (b : Buf) : Nat × Buf × Bool :=
  let w := b.data b.tail
  let t := b.tail + 1
  if t = 512 then (w, { b with tail := 512 }, true)
  else if t = 1024 then (w, { b with tail := 0 }, true)
  else (w, { b with tail := t }, false)

/-- Model of `buffer_readPage` (buffer.c:137-150): if `pTail > pPage0` return page 1
and reset `pTail` to `pPage0`, else return page 0 and advance `pTail` to
`pPage1`.  The first component is the returned page index (0 for `pPage0`,
1 for `pPage1`); no callback is ever invoked. -/
def buffer_readPage (b : Buf) : Nat × Buf :=
  if b.tail > 0 then (1, { b with tail := 0 })
  else (0, { b with tail := 512 })

/-- Model of `buffer_writePage` (buffer.c:163-176): same for the write cursor. -/
def buffer_writePage (b : Buf) : Nat × Buf :=
  if b.head > 0 then (1, { b with head := 0 })
  else (0, { b with head := 512 })

/-- Model of `buffer_reset` (buffer.c:73-77): both cursors back to the top of
page 0. -/
def buffer_reset (b : Buf) : Buf :=
  { b with head := 0, tail := 0 }

/-- Buffer together with instrumentation counting callback invocations.
Used for the claims about `buffer.c` in isolation, where the registered
callbacks do not touch the buffer: `fullCount`/`emptyCount` count the
invocations of `callbackPageFull`/`callbackPageEmpty`. -/
structure CountBuf where
  buf : Buf
  fullCount : Nat
  emptyCount : Nat

/-- Model of `buffer_queue` with counting callbacks. -/
def buffer_queue (c : CountBuf) (w : Nat) : CountBuf :=
  let (b, fired) := queueStep c.buf w
  if fired then { c with buf := b, fullCount := c.fullCount + 1 }
  else { c with buf := b }

/-- Model of `buffer_dequeue` with counting callbacks; returns the dequeued byte. -/
def buffer_dequeue (c : CountBuf) : Nat × CountBuf :=
  let (w, b, fired) := dequeueStep c.buf
  if fired then (w, { c with buf := b, emptyCount := c.emptyCount + 1 })
  else (w, { c with buf := b })

/-- A sequence of `buffer_queue` calls. -/
def queueRun (c : CountBuf) (ws : List Nat) : CountBuf :=
  ws.foldl buffer_queue c

/-- A sequence of `n` `buffer_dequeue` calls, collecting the bytes
returned, in order. -/
def dequeueRun (c : CountBuf) : Nat → List Nat × CountBuf
  | 0 => ([], c)
  | n + 1 =>
      let (w, c') := buffer_dequeue c
      let (ws, c'') := dequeueRun c' n
      (w :: ws, c'')

/-- The page (0 or 1) an offset below 1024 lies in. -/
def pageOf (t : Nat) : Nat := t / 512

/-- A concrete buffer whose cursors sit at the top of page 0 (the state
`buffer_reset` establishes). -/
def resetCBuf : CountBuf :=
  { buf := { data := fun _ => 0, head := 0, tail := 0 }, fullCount := 0, emptyCount := 0 }

/-- Model of `buffer_readPage` lifted to the instrumented buffer: the source
function never invokes either callback (buffer.c:137-150). -/
def buffer_readPageC (c : CountBuf) : Nat × CountBuf :=
  let (p, b) := buffer_readPage c.buf
  (p, { c with buf := b })

/-!  System model of `main.c` / `wave.c` (success-path storage).

The FatFs collaborator is out of scope; its calls are modelled on the
success path (`f_write`/`f_read` transfer the full requested count), with
instrumentation logs recording the byte counts `wave_write`/`wave_read`
were called with.  The file-content data flow of `wave_read` is not
modelled: no claim inspects played-back bytes.  -/

/-- State of the `wave.c` module plus the on-card header. -/
structure Wave where
  sampleCount : Nat      -- `sampleCount` (uint32), bytes written since `wave_create`
  finaliseHeader : Nat   -- `finaliseHeader` flag
  dataSize : Nat         -- `dataSize` field of the header on the card
  writes : List Nat      -- instrumentation: byte counts of `wave_write` calls
  reads : List Nat       -- instrumentation: byte counts of `wave_read` calls

/-- Model of `wave_create` (wave.c:218-232): truncate the file, write a fresh
header (placeholder `dataSize` 0), flag finalisation, reset the sample
counter. -/
def wave_create (v : Wave) : Wave :=
  { v with sampleCount := 0, finaliseHeader := 1, dataSize := 0 }

/-- Model of `wave_write` (wave.c:286-298) on the success path (`bw = count`):
log the write and add the transferred count to `sampleCount` (uint32). -/
def wave_write (v : Wave) (count : Nat) : Wave :=
  { v with writes := v.writes ++ [count],
           sampleCount := (v.sampleCount + count) % 4294967296 }

/-- Model of `wave_read` (wave.c:310-319) on the success path: log the request. -/
def wave_read (v : Wave) (count : Nat) : Wave :=
  { v with reads := v.reads ++ [count] }

/-- Model of `finalise_wave_header` (wave.c:165-186): rewrite the header's
`dataSize` (and chunk size) from `sampleCount`. -/
def finalise_wave_header (v : Wave) : Wave :=
  { v with dataSize := v.sampleCount }

/-- Model of `wave_close` (wave.c:260-274): finalise the header if flagged, then
close. -/
def wave_close (v : Wave) : Wave :=
  if v.finaliseHeader ≠ 0 then
    { finalise_wave_header v with finaliseHeader := 0 }
  else v

/-- Return value of `wave_open` (wave.c:242-253) on the success path:
the `dataSize` reported by the on-card header. -/
def wave_openReturn (v : Wave) : Nat := v.dataSize

/-- Model of `read_wave_header` (wave.c:140-158) as a function of the outcome of
the 44-byte `f_read`: `result` is the `FRESULT` error code, `br` the
byte count transferred, `dataSize` the header field that was read.  The
source computes `result | (br != 44)` and returns 0 ("empty" file) when
it is non-zero. -/
def read_wave_header (result br dataSize : Nat) : Nat :=
  if result ≠ 0 ∨ br ≠ 44 then 0 else dataSize

/-- Model of `wave_open` (wave.c:242-253) as a function of the `f_open` result and
the header-read outcome: the `f_open` result is only printed, and the
value of `read_wave_header` is returned unconditionally. -/
def wave_open (_openResult result br dataSize : Nat) : Nat :=
  read_wave_header result br dataSize

/-- The DVR state (`main.c` globals, the state-machine variable of
`main`, the modelled hardware state, and the buffer/wave sub-states).
`adcOn` models `ADCSRA` being enabled (`adc_start`/`adc_stop`), `pwmOn`
models the Timer1 overflow interrupt being enabled (`PWM_init`/
`PWM_stop`), `ocr1b` the `OCR1B` output-compare register.  `pops` is
ghost instrumentation counting the `buffer_dequeue` calls made by the
Timer1 ISR. -/
structure Dvr where
  state : Nat
  countpage : Nat        -- uint16
  pageCount : Nat        -- uint16
  newPage : Nat          -- uint16
  stop : Nat             -- uint8
  overflow_counter : Nat -- uint8
  overflow_reset : Nat   -- uint8
  pb_prev : Nat          -- uint8
  adcOn : Bool
  pwmOn : Bool
  ocr1b : Nat
  pops : Nat
  buf : Buf
  wave : Wave

def DVR_STOPPED : Nat := 0
def DVR_RECORDING : Nat := 1
def DVR_PLAYING : Nat := 2

/-- Model of `pageFull` (main.c:81-89): pre-decrement `pageCount` (uint16); at
zero stop the ADC and flag completion, otherwise flag the pending
page. -/
def pageFull (d : Dvr) : Dvr :=
  let pc := (d.pageCount + 65535) % 65536
  if pc = 0 then { d with pageCount := pc, adcOn := false, stop := 1 }
  else { d with pageCount := pc, newPage := 1 }

/-- Model of `pageEmpty` (main.c:92-98): pre-decrement `pageCount`; at zero flag
completion, otherwise flag the pending page. -/
def pageEmpty (d : Dvr) : Dvr :=
  let pc := (d.pageCount + 65535) % 65536
  if pc = 0 then { d with pageCount := pc, stop := 1 }
  else { d with pageCount := pc, newPage := 1 }

/-- Model of `ISR(ADC_vect)` (adc.c:51-54): while the ADC is enabled, each
conversion pushes one sample through `buffer_queue`, whose page-full
callback is `pageFull` (bound by `buffer_init` in main.c:64). -/
def adcISR (d : Dvr) (sample : Nat) : Dvr :=
  if d.adcOn then
    let (b, fired) := queueStep d.buf sample
    let d' := { d with buf := b }
    if fired then pageFull d' else d'
  else d

/-- A burst of ADC conversions. -/
def adcRun (d : Dvr) (ws : List Nat) : Dvr :=
  ws.foldl adcISR d

/-- Model of `ISR(TIMER1_OVF_vect)` (main.c:152-163), active while the Timer1
overflow interrupt is enabled: increment `overflow_counter` (uint8); on
reaching `overflow_reset`, dequeue one sample (page-empty callback =
`pageEmpty`), write it to `OCR1B` and restart the count. -/
def timer1ISR (d : Dvr) : Dvr :=
  if d.pwmOn then
    let oc := (d.overflow_counter + 1) % 256
    if oc = d.overflow_reset then
      let (w, b, fired) := dequeueStep d.buf
      let d1 := { d with buf := b, pops := d.pops + 1 }
      let d2 := if fired then pageEmpty d1 else d1
      { d2 with ocr1b := w, overflow_counter := 0 }
    else { d with overflow_counter := oc }
  else d

/-- A run of `k` Timer1 overflow ticks. -/
def timer1Run (d : Dvr) : Nat → Dvr
  | 0 => d
  | k + 1 => timer1Run (timer1ISR d) k

/-- Model of `dvr_record` (main.c:105-117) with the page limit as a parameter:
reset the buffer, clear `countpage` and `newPage`, set the countdown,
create the WAVE file and start sampling. -/
def dvr_recordWith (d : Dvr) (limit : Nat) : Dvr :=
  { d with buf := buffer_reset d.buf, countpage := 0, pageCount := limit,
           newPage := 0, wave := wave_create d.wave, adcOn := true }

/-- Model of `dvr_record` as in the source, with its hardcoded limit of 305
pages. -/
def dvr_record (d : Dvr) : Dvr := dvr_recordWith d 305

/-- Model of `PWM_init` (main.c:121-143): enable the Timer1 overflow interrupt;
`OCR1B` is programmed to 50% duty (512 × 0.5). -/
def PWM_init (d : Dvr) : Dvr := { d with pwmOn := true, ocr1b := 256 }

/-- Model of `PWM_stop` (main.c:145-150). -/
def PWM_stop (d : Dvr) : Dvr := { d with pwmOn := false, ocr1b := 0 }

/-- Model of `playback` (main.c:165-176): reset the buffer, load the page
countdown from `countpage`, set the tick divisor, open the WAVE file
(the sample count `wave_open` returns is discarded by the source), prime
the buffer with a single 1024-byte read into `buffer_writePage()`, clear
`newPage` and start the output. -/
def playback (d : Dvr) : Dvr :=
  let d1 := { d with buf := buffer_reset d.buf }
  let d2 := { d1 with pageCount := d1.countpage }
  let d3 := { d2 with overflow_reset := 2, overflow_counter := 0 }
  let _discarded := wave_openReturn d3.wave
  let (_, b) := buffer_writePage d3.buf
  let d4 := { d3 with buf := b, wave := wave_read d3.wave 1024 }
  let d5 := { d4 with newPage := 0 }
  PWM_init d5

/-- One iteration of the `main` control loop (main.c:198-295) given the
debounced button byte `pb` (`pb_debounced`).  `none` models the
iteration never terminating (the `while (pb_rise & (1<<PINF6))` loop in
the recording stop branch spins forever when entered, since `pb_rise`
is not re-read inside it). -/
def mainStep (d0 : Dvr) (pb : Nat) : Option Dvr :=
  let rise := Nat.land pb (Nat.xor pb d0.pb_prev)
  let d := { d0 with pb_prev := pb }
  if d.state = DVR_STOPPED then
    let d := if rise.testBit 4 then { playback d with state := DVR_PLAYING } else d
    let d := if rise.testBit 5 then { dvr_record d with state := DVR_RECORDING } else d
    some d
  else if d.state = DVR_RECORDING then
    let d := if rise.testBit 6 then { d with pageCount := 1 } else d
    if d.newPage ≠ 0 then
      let d := { d with countpage := (d.countpage + 1) % 65536, newPage := 0 }
      let (_, b) := buffer_readPage d.buf
      some { d with buf := b, wave := wave_write d.wave 512 }
    else if d.stop ≠ 0 then
      let d := { d with stop := 0 }
      let (_, b) := buffer_readPage d.buf
      let d := { d with buf := b, wave := wave_write d.wave 512 }
      let d := { d with wave := wave_close d.wave, adcOn := false }
      if rise.testBit 6 then none
      else some { d with state := DVR_STOPPED }
    else some d
  else if d.state = DVR_PLAYING then
    if d.newPage ≠ 0 then
      let d := { d with newPage := 0 }
      let (_, b) := buffer_writePage d.buf
      some { d with buf := b, wave := wave_read d.wave 512 }
    else if d.stop ≠ 0 ∨ rise.testBit 6 = true then
      some { d with stop := 0, wave := wave_close d.wave, pwmOn := false, ocr1b := 0,
                    state := DVR_STOPPED, overflow_reset := 2 }
    else some d
  else
    some { d with state := DVR_STOPPED }

/-- A concrete idle DVR state used by the scenarios and witnesses. -/
def dvr0 : Dvr :=
  { state := 0, countpage := 0, pageCount := 0, newPage := 0, stop := 0,
    overflow_counter := 0, overflow_reset := 2, pb_prev := 0,
    adcOn := false, pwmOn := false, ocr1b := 0, pops := 0,
    buf := { data := fun _ => 0, head := 0, tail := 0 },
    wave := { sampleCount := 0, finaliseHeader := 0, dataSize := 0,
              writes := [], reads := [] } }

/-- Concrete state for the C6 recording scenario: a recording session
started with a page-countdown limit of 2 (the configured limit, here 2
instead of the source's hardcoded 305). -/
def recStart : Dvr := { dvr_recordWith dvr0 2 with state := DVR_RECORDING }

/-- C6 scenario: push 512 samples (page 0 fills), run one control-loop
iteration, push 512 more (page 1 fills), run one more iteration. -/
def recScenario : Option Dvr :=
  (mainStep (adcRun recStart (List.replicate 512 7)) 0).bind fun d1 =>
  mainStep (adcRun d1 (List.replicate 512 9)) 0

/-- Base state for the playback scenario and the C2 counterexample: the
on-card header reports 768 samples (= 1.5 x 512); the last recording
session left `countpage` = 2. -/
def playBase : Dvr :=
  { dvr0 with countpage := 2, wave := { dvr0.wave with dataSize := 768 } }

/-- Playback scenario: press S1 (PF4 rising edge), run 1024 Timer1
ticks (512 output samples), one control-loop iteration, 1024 more
ticks, one more iteration. -/
def playScenario : Option Dvr :=
  (mainStep playBase 16).bind fun d1 =>
  (mainStep (timer1Run d1 1024) 0).bind fun d2 =>
  mainStep (timer1Run d2 1024) 0

/-- Two states whose on-card headers report the same sample count (768)
but whose recording-session page counters differ. -/
def dvrHdrA : Dvr :=
  { dvr0 with countpage := 3, wave := { dvr0.wave with dataSize := 768 } }

/-- See `dvrHdrA`. -/
def dvrHdrB : Dvr :=
  { dvr0 with countpage := 5, wave := { dvr0.wave with dataSize := 768 } }

/-- Concrete playing state for the C9 witness (divisor at its default
of 2). -/
def dvrPlay : Dvr := { dvr0 with state := DVR_PLAYING, pwmOn := true }

/-- Concrete mid-page recording state for the C7 witness: 100 samples
into a page. -/
def recMid : Dvr :=
  { dvr0 with state := DVR_RECORDING, adcOn := true, pageCount := 5,
              buf := { data := fun _ => 0, head := 100, tail := 0 } }

/-- Intermediate states of `playScenario`, fully evaluated.  `playD0`
is the state right after the start-playback edge; `playD1`/`playD2`
after 1022 resp. 1024 Timer1 ticks; `playD3` after the control-loop
iteration that issues the second read; `playD4`/`playD5` after the next
1022 resp. 1024 ticks; `playD6` the terminal state. -/
def playD0 : Dvr :=
  { state := 2, countpage := 2, pageCount := 2, newPage := 0, stop := 0,
    overflow_counter := 0, overflow_reset := 2, pb_prev := 16,
    adcOn := false, pwmOn := true, ocr1b := 256, pops := 0,
    buf := { data := fun _ => 0, head := 512, tail := 0 },
    wave := { sampleCount := 0, finaliseHeader := 0, dataSize := 768,
              writes := [], reads := [1024] } }

/-- See `playD0`. -/
def playD1 : Dvr :=
  { state := 2, countpage := 2, pageCount := 2, newPage := 0, stop := 0,
    overflow_counter := 0, overflow_reset := 2, pb_prev := 16,
    adcOn := false, pwmOn := true, ocr1b := 0, pops := 511,
    buf := { data := fun _ => 0, head := 512, tail := 511 },
    wave := { sampleCount := 0, finaliseHeader := 0, dataSize := 768,
              writes := [], reads := [1024] } }

/-- See `playD0`. -/
def playD2 : Dvr :=
  { state := 2, countpage := 2, pageCount := 1, newPage := 1, stop := 0,
    overflow_counter := 0, overflow_reset := 2, pb_prev := 16,
    adcOn := false, pwmOn := true, ocr1b := 0, pops := 512,
    buf := { data := fun _ => 0, head := 512, tail := 512 },
    wave := { sampleCount := 0, finaliseHeader := 0, dataSize := 768,
              writes := [], reads := [1024] } }

/-- See `playD0`. -/
def playD3 : Dvr :=
  { state := 2, countpage := 2, pageCount := 1, newPage := 0, stop := 0,
    overflow_counter := 0, overflow_reset := 2, pb_prev := 0,
    adcOn := false, pwmOn := true, ocr1b := 0, pops := 512,
    buf := { data := fun _ => 0, head := 0, tail := 512 },
    wave := { sampleCount := 0, finaliseHeader := 0, dataSize := 768,
              writes := [], reads := [1024, 512] } }

/-- See `playD0`. -/
def playD4 : Dvr :=
  { state := 2, countpage := 2, pageCount := 1, newPage := 0, stop := 0,
    overflow_counter := 0, overflow_reset := 2, pb_prev := 0,
    adcOn := false, pwmOn := true, ocr1b := 0, pops := 1023,
    buf := { data := fun _ => 0, head := 0, tail := 1023 },
    wave := { sampleCount := 0, finaliseHeader := 0, dataSize := 768,
              writes := [], reads := [1024, 512] } }

/-- See `playD0`. -/
def playD5 : Dvr :=
  { state := 2, countpage := 2, pageCount := 0, newPage := 0, stop := 1,
    overflow_counter := 0, overflow_reset := 2, pb_prev := 0,
    adcOn := false, pwmOn := true, ocr1b := 0, pops := 1024,
    buf := { data := fun _ => 0, head := 0, tail := 0 },
    wave := { sampleCount := 0, finaliseHeader := 0, dataSize := 768,
              writes := [], reads := [1024, 512] } }

/-- See `playD0`. -/
def playD6 : Dvr :=
  { state := 0, countpage := 2, pageCount := 0, newPage := 0, stop := 0,
    overflow_counter := 0, overflow_reset := 2, pb_prev := 0,
    adcOn := false, pwmOn := false, ocr1b := 0, pops := 1024,
    buf := { data := fun _ => 0, head := 0, tail := 0 },
    wave := { sampleCount := 0, finaliseHeader := 0, dataSize := 768,
              writes := [], reads := [1024, 512] } }


-- Single-push characterisation: head advances modulo 1024 and the
-- page-full callback fires exactly when the advanced head hits a page
-- boundary (a multiple of 512).
lemma buffer_queue_head (c : CountBuf) (w : Nat) (h : c.buf.head < 1024) :
    (buffer_queue c w).buf.head = (c.buf.head + 1) % 1024 := by
  unfold buffer_queue queueStep
  rcases Nat.lt_or_ge (c.buf.head + 1) 1024 with h1 | h1
  · by_cases h512 : c.buf.head + 1 = 512
    · simp [h512]
    · have h1024 : c.buf.head + 1 ≠ 1024 := by omega
      simp [h512, h1024, Nat.mod_eq_of_lt h1]
  · have h1024 : c.buf.head + 1 = 1024 := by omega
    have h512 : c.buf.head + 1 ≠ 512 := by omega
    simp [h512, h1024]

lemma buffer_queue_fullCount (c : CountBuf) (w : Nat) (h : c.buf.head < 1024) :
    (buffer_queue c w).fullCount =
      if (c.buf.head + 1) % 512 = 0 then c.fullCount + 1 else c.fullCount := by
  unfold buffer_queue queueStep
  by_cases h512 : c.buf.head + 1 = 512
  · simp [h512]
  · by_cases h1024 : c.buf.head + 1 = 1024
    · simp [h512, h1024]
    · have hne : (c.buf.head + 1) % 512 ≠ 0 := by
        intro hmod
        obtain ⟨k, hk⟩ := Nat.dvd_of_mod_eq_zero hmod
        omega
      simp [h512, h1024, hne]

lemma buffer_queue_tail (c : CountBuf) (w : Nat) :
    (buffer_queue c w).buf.tail = c.buf.tail := by
  unfold buffer_queue queueStep
  by_cases h512 : c.buf.head + 1 = 512
  · simp [h512]
  · by_cases h1024 : c.buf.head + 1 = 1024 <;> simp [h512, h1024]

lemma buffer_queue_emptyCount (c : CountBuf) (w : Nat) :
    (buffer_queue c w).emptyCount = c.emptyCount := by
  unfold buffer_queue queueStep
  by_cases h512 : c.buf.head + 1 = 512
  · simp [h512]
  · by_cases h1024 : c.buf.head + 1 = 1024 <;> simp [h512, h1024]

-- Run-level characterisation of a sequence of pushes: the head advances
-- modulo the capacity and the number of page-full callbacks is the
-- number of page boundaries crossed.
lemma queueRun_spec (ws : List Nat) : ∀ c : CountBuf, c.buf.head < 1024 →
    (queueRun c ws).buf.head = (c.buf.head + ws.length) % 1024 ∧
    (queueRun c ws).fullCount = c.fullCount + (c.buf.head % 512 + ws.length) / 512 := by
  induction ws with
  | nil =>
      intro c hc
      simp [queueRun, Nat.mod_eq_of_lt hc]
  | cons w rest ih =>
      intro c hc
      have hq : queueRun c (w :: rest) = queueRun (buffer_queue c w) rest := rfl
      have hhead := buffer_queue_head c w hc
      have hfull := buffer_queue_fullCount c w hc
      have hc' : (buffer_queue c w).buf.head < 1024 := by
        rw [hhead]; exact Nat.mod_lt _ (by omega)
      obtain ⟨ih1, ih2⟩ := ih (buffer_queue c w) hc'
      constructor
      · rw [hq, ih1, hhead, Nat.mod_add_mod]
        simp [Nat.add_assoc, Nat.add_comm 1 rest.length]
      · rw [hq, ih2, hhead, hfull]
        have hmm : (c.buf.head + 1) % 1024 % 512 = (c.buf.head + 1) % 512 :=
          Nat.mod_mod_of_dvd _ (by norm_num)
        rw [hmm]
        by_cases hz : (c.buf.head + 1) % 512 = 0 <;> simp [hz] <;> omega

/-- C3: for every sequence of `k` `buffer_queue` calls from any cursor
position `< 1024`, the write cursor ends at `(initial + k) % 1024` and
stays within `[0, 1024)`; the page-full callback fires exactly
`(initial % 512 + k) / 512` times — in particular exactly `k / 512`
times from a page-aligned start — and a single push fires it exactly
when the advanced cursor lands on a multiple of 512, never on any other
advance. -/
theorem queueRun_cursor_mod_and_callback_count (c : CountBuf) (ws : List Nat)
    (h : c.buf.head < 1024) :
    (queueRun c ws).buf.head = (c.buf.head + ws.length) % 1024 ∧
    (queueRun c ws).buf.head < 1024 ∧
    (queueRun c ws).fullCount = c.fullCount + (c.buf.head % 512 + ws.length) / 512 ∧
    (c.buf.head % 512 = 0 →
      (queueRun c ws).fullCount = c.fullCount + ws.length / 512) ∧
    (∀ w, (buffer_queue c w).fullCount =
      if (c.buf.head + 1) % 512 = 0 then c.fullCount + 1 else c.fullCount) := by
  obtain ⟨h1, h2⟩ := queueRun_spec ws c h
  refine ⟨h1, ?_, h2, ?_, fun w => buffer_queue_fullCount c w h⟩
  · rw [h1]; exact Nat.mod_lt _ (by omega)
  · intro ha; rw [h2, ha]; norm_num

/-- Witness for C3 at a concrete input: 600 pushes from the reset state
land the head at 600 and fire the page-full callback once. -/
theorem queueRun_cursor_mod_and_callback_count_witness :
    (queueRun resetCBuf (List.replicate 600 7)).buf.head = 600 ∧
    (queueRun resetCBuf (List.replicate 600 7)).fullCount = 1 := by
  obtain ⟨h1, _, h3, _, _⟩ :=
    queueRun_cursor_mod_and_callback_count resetCBuf (List.replicate 600 7)
      (by show (0 : Nat) < 1024; omega)
  constructor
  · rw [h1]; norm_num [resetCBuf]
  · rw [h3]; norm_num [resetCBuf]

/-- C1 (amended): for a page-aligned read cursor, `buffer_readPage`
returns the page the read cursor currently sits in (not the opposite
one), advances the read cursor to the top of the opposite page, fires
neither callback and leaves the write cursor and the data untouched;
two consecutive calls therefore alternate deterministically between the
pages, starting from whichever page the read cursor was in. -/
theorem buffer_readPage_returns_current_page (c : CountBuf)
    (h : c.buf.tail = 0 ∨ c.buf.tail = 512) :
    (buffer_readPageC c).1 = pageOf c.buf.tail ∧
    (buffer_readPageC c).2.buf.tail = 512 * (1 - pageOf c.buf.tail) ∧
    (buffer_readPageC c).2.fullCount = c.fullCount ∧
    (buffer_readPageC c).2.emptyCount = c.emptyCount ∧
    (buffer_readPageC c).2.buf.head = c.buf.head ∧
    (buffer_readPageC c).2.buf.data = c.buf.data ∧
    (buffer_readPageC (buffer_readPageC c).2).1 = 1 - pageOf c.buf.tail := by
  rcases h with h | h <;>
    simp [buffer_readPageC, buffer_readPage, pageOf, h]

/-- Witness for the amended C1 at the reset state (read cursor at the
top of page 0). -/
theorem buffer_readPage_returns_current_page_witness :
    (buffer_readPageC resetCBuf).1 = pageOf resetCBuf.buf.tail ∧
    (buffer_readPageC resetCBuf).2.buf.tail = 512 * (1 - pageOf resetCBuf.buf.tail) ∧
    (buffer_readPageC resetCBuf).2.fullCount = resetCBuf.fullCount ∧
    (buffer_readPageC resetCBuf).2.emptyCount = resetCBuf.emptyCount ∧
    (buffer_readPageC resetCBuf).2.buf.head = resetCBuf.buf.head ∧
    (buffer_readPageC resetCBuf).2.buf.data = resetCBuf.buf.data ∧
    (buffer_readPageC (buffer_readPageC resetCBuf).2).1 = 1 - pageOf resetCBuf.buf.tail :=
  buffer_readPage_returns_current_page resetCBuf (Or.inl rfl)

/-- Counterexample to C1 as stated: with the read cursor at the top of
page 0, `buffer_readPage` does not return the opposite page (page 1) —
it returns page 0. -/
theorem buffer_readPage_not_opposite_page :
    ¬ (buffer_readPageC resetCBuf).1 = 1 - pageOf resetCBuf.buf.tail := by
  decide

-- Data-plane characterisation of a push: only the cell under the write
-- cursor changes.
lemma buffer_queue_data (c : CountBuf) (w : Nat) (j : Nat) :
    (buffer_queue c w).buf.data j = if j = c.buf.head then w else c.buf.data j := by
  unfold buffer_queue queueStep
  by_cases h512 : c.buf.head + 1 = 512
  · simp [h512]
  · by_cases h1024 : c.buf.head + 1 = 1024 <;> simp [h512, h1024]

lemma queueRun_tail (ws : List Nat) : ∀ c : CountBuf,
    (queueRun c ws).buf.tail = c.buf.tail := by
  induction ws with
  | nil => intro c; rfl
  | cons w rest ih =>
      intro c
      have hq : queueRun c (w :: rest) = queueRun (buffer_queue c w) rest := rfl
      rw [hq, ih, buffer_queue_tail]

-- Cells strictly below the write cursor are untouched by a run of
-- pushes that does not wrap past the end of the buffer.
lemma queueRun_data_lower (ws : List Nat) : ∀ (c : CountBuf) (j : Nat),
    c.buf.head + ws.length ≤ 1024 → j < c.buf.head →
    (queueRun c ws).buf.data j = c.buf.data j := by
  induction ws with
  | nil => intro c j _ _; rfl
  | cons w rest ih =>
      intro c j h hj
      have hq : queueRun c (w :: rest) = queueRun (buffer_queue c w) rest := rfl
      have hlen : c.buf.head + 1 + rest.length ≤ 1024 := by
        simpa [Nat.add_comm, Nat.add_assoc, Nat.add_left_comm] using h
      have hlt : c.buf.head < 1024 := by omega
      have hdata : (buffer_queue c w).buf.data j = c.buf.data j := by
        rw [buffer_queue_data]
        simp [Nat.ne_of_lt hj]
      by_cases hw : c.buf.head + 1 = 1024
      · have hrest : rest = [] := by
          cases rest with
          | nil => rfl
          | cons a l => simp [List.length] at hlen; omega
        subst hrest
        simpa [hq, queueRun] using hdata
      · have hhead : (buffer_queue c w).buf.head = c.buf.head + 1 := by
          rw [buffer_queue_head c w hlt]
          exact Nat.mod_eq_of_lt (by omega)
        rw [hq, ih (buffer_queue c w) j (by rw [hhead]; omega) (by rw [hhead]; omega)]
        exact hdata

-- A non-wrapping run of pushes writes its byte sequence contiguously at
-- the starting write cursor.
lemma queueRun_data (ws : List Nat) : ∀ (c : CountBuf) (i : Nat),
    c.buf.head + ws.length ≤ 1024 → i < ws.length →
    (queueRun c ws).buf.data (c.buf.head + i) = ws.getD i 0 := by
  induction ws with
  | nil => intro c i _ hi; simp at hi
  | cons w rest ih =>
      intro c i h hi
      have hq : queueRun c (w :: rest) = queueRun (buffer_queue c w) rest := rfl
      have hlen : c.buf.head + 1 + rest.length ≤ 1024 := by
        simpa [Nat.add_comm, Nat.add_assoc, Nat.add_left_comm] using h
      have hlt : c.buf.head < 1024 := by omega
      have hdata : (buffer_queue c w).buf.data c.buf.head = w := by
        rw [buffer_queue_data]; simp
      by_cases hw : c.buf.head + 1 = 1024
      · have hrest : rest = [] := by
          cases rest with
          | nil => rfl
          | cons a l => simp [List.length] at hlen; omega
        subst hrest
        have hi0 : i = 0 := by simp [List.length] at hi; omega
        subst hi0
        simpa [hq, queueRun] using hdata
      · have hhead : (buffer_queue c w).buf.head = c.buf.head + 1 := by
          rw [buffer_queue_head c w hlt]
          exact Nat.mod_eq_of_lt (by omega)
        cases i with
        | zero =>
            rw [hq]
            have := queueRun_data_lower rest (buffer_queue c w) c.buf.head
              (by rw [hhead]; omega) (by rw [hhead]; omega)
            simpa [this] using hdata
        | succ i' =>
            have hi' : i' < rest.length := by simp [List.length] at hi; omega
            have := ih (buffer_queue c w) i' (by rw [hhead]; omega) hi'
            rw [hhead] at this
            rw [hq]
            have harith : c.buf.head + (i' + 1) = c.buf.head + 1 + i' := by omega
            rw [harith, this]
            rfl

-- Dequeue-side single-step characterisation.
lemma buffer_dequeue_val (c : CountBuf) :
    (buffer_dequeue c).1 = c.buf.data c.buf.tail := by
  unfold buffer_dequeue dequeueStep
  by_cases h512 : c.buf.tail + 1 = 512
  · simp [h512]
  · by_cases h1024 : c.buf.tail + 1 = 1024 <;> simp [h512, h1024]

lemma buffer_dequeue_data (c : CountBuf) :
    (buffer_dequeue c).2.buf.data = c.buf.data := by
  unfold buffer_dequeue dequeueStep
  by_cases h512 : c.buf.tail + 1 = 512
  · simp [h512]
  · by_cases h1024 : c.buf.tail + 1 = 1024 <;> simp [h512, h1024]

lemma buffer_dequeue_tail (c : CountBuf) (h : c.buf.tail < 1024) :
    (buffer_dequeue c).2.buf.tail = (c.buf.tail + 1) % 1024 := by
  unfold buffer_dequeue dequeueStep
  rcases Nat.lt_or_ge (c.buf.tail + 1) 1024 with h1 | h1
  · by_cases h512 : c.buf.tail + 1 = 512
    · simp [h512]
    · have h1024 : c.buf.tail + 1 ≠ 1024 := by omega
      simp [h512, h1024, Nat.mod_eq_of_lt h1]
  · have h1024 : c.buf.tail + 1 = 1024 := by omega
    have h512 : c.buf.tail + 1 ≠ 512 := by omega
    simp [h512, h1024]

-- A non-wrapping run of dequeues returns the contiguous cells starting
-- at the read cursor and leaves the data unchanged.
lemma dequeueRun_spec (n : Nat) : ∀ c : CountBuf, c.buf.tail + n ≤ 1024 →
    (dequeueRun c n).1 =
      (List.range n).map (fun i => c.buf.data (c.buf.tail + i)) ∧
    (dequeueRun c n).2.buf.data = c.buf.data := by
  induction n with
  | zero => intro c _; simp [dequeueRun]
  | succ n ih =>
      intro c h
      have hlt : c.buf.tail < 1024 := by omega
      have hval := buffer_dequeue_val c
      have hdata := buffer_dequeue_data c
      have htail := buffer_dequeue_tail c hlt
      have hrun : dequeueRun c (n + 1) =
          ((buffer_dequeue c).1 :: (dequeueRun (buffer_dequeue c).2 n).1,
           (dequeueRun (buffer_dequeue c).2 n).2) := rfl
      by_cases hw : c.buf.tail + 1 = 1024
      · have hn : n = 0 := by omega
        subst hn
        rw [hrun]
        simp [dequeueRun, hval, hdata, List.range_succ]
      · have htail' : (buffer_dequeue c).2.buf.tail = c.buf.tail + 1 := by
          rw [htail]; exact Nat.mod_eq_of_lt (by omega)
        obtain ⟨ih1, ih2⟩ := ih (buffer_dequeue c).2 (by rw [htail']; omega)
        simp only [htail', hdata] at ih1 ih2
        constructor
        · rw [hrun]
          simp only [ih1, hval, List.range_succ_eq_map, List.map_cons, List.map_map]
          congr 1
          apply List.map_congr_left
          intro i _
          simp only [Function.comp_apply]
          congr 1
          omega
        · rw [hrun]
          exact ih2

-- Reading back a list elementwise by position reproduces the list.
lemma map_getD_range (ws : List Nat) :
    (List.range ws.length).map (fun i => ws.getD i 0) = ws := by
  induction ws with
  | nil => simp
  | cons w rest ih =>
      have hlen : (w :: rest).length = rest.length + 1 := rfl
      rw [hlen, List.range_succ_eq_map, List.map_cons, List.map_map]
      have hcomp : ((fun i => (w :: rest).getD i 0) ∘ Nat.succ) =
          fun i => rest.getD i 0 := by
        funext i
        simp [Function.comp]
      rw [hcomp, ih]
      simp

/-- C4: round-trip — starting from a reset buffer, pushing any sequence
of `N ≤ 1024` bytes one at a time via `buffer_queue` and then dequeuing
`N` bytes one at a time via `buffer_dequeue` (callbacks only count, they
do not touch the buffer) returns exactly the original byte sequence in
order. -/
theorem queue_dequeue_roundtrip (b : Buf) (fc ec : Nat) (ws : List Nat)
    (h : ws.length ≤ 1024) :
    (dequeueRun (queueRun ⟨buffer_reset b, fc, ec⟩ ws) ws.length).1 = ws := by
  have hhead : (⟨buffer_reset b, fc, ec⟩ : CountBuf).buf.head = 0 := rfl
  have htail0 : (⟨buffer_reset b, fc, ec⟩ : CountBuf).buf.tail = 0 := rfl
  have htail : (queueRun ⟨buffer_reset b, fc, ec⟩ ws).buf.tail = 0 := by
    rw [queueRun_tail]; exact rfl
  have hdata : ∀ i, i < ws.length →
      (queueRun ⟨buffer_reset b, fc, ec⟩ ws).buf.data i = ws.getD i 0 := by
    intro i hi
    have := queueRun_data ws ⟨buffer_reset b, fc, ec⟩ i
      (by rw [hhead]; omega) hi
    rw [hhead] at this
    simpa using this
  obtain ⟨hd1, _⟩ := dequeueRun_spec ws.length (queueRun ⟨buffer_reset b, fc, ec⟩ ws)
    (by rw [htail]; omega)
  rw [hd1, htail]
  have : (List.range ws.length).map
      (fun i => (queueRun ⟨buffer_reset b, fc, ec⟩ ws).buf.data (0 + i)) =
      (List.range ws.length).map (fun i => ws.getD i 0) := by
    apply List.map_congr_left
    intro i hi
    rw [Nat.zero_add]
    exact hdata i (List.mem_range.mp hi)
  rw [this, map_getD_range]

/-- Witness for C4 at a concrete input. -/
theorem queue_dequeue_roundtrip_witness :
    (dequeueRun (queueRun ⟨buffer_reset ⟨fun _ => 0, 3, 7⟩, 0, 0⟩ [3, 1, 4, 1, 5]) 5).1
      = [3, 1, 4, 1, 5] := by
  have h := queue_dequeue_roundtrip ⟨fun _ => 0, 3, 7⟩ 0 0 [3, 1, 4, 1, 5] (by norm_num)
  simpa using h


/-- C5: every `pageFull` invocation during recording decrements the page
countdown by one; at zero it disables the ADC (sample producer) and sets
the completion flag, otherwise it sets the pending-page flag; it
performs no storage I/O and does not touch the buffer. -/
theorem pageFull_decrements_and_flags (d : Dvr)
    (h1 : 0 < d.pageCount) (h2 : d.pageCount < 65536) :
    (pageFull d).pageCount = d.pageCount - 1 ∧
    (d.pageCount = 1 →
      (pageFull d).adcOn = false ∧ (pageFull d).stop = 1 ∧
      (pageFull d).newPage = d.newPage) ∧
    (d.pageCount ≠ 1 →
      (pageFull d).newPage = 1 ∧ (pageFull d).stop = d.stop ∧
      (pageFull d).adcOn = d.adcOn) ∧
    (pageFull d).wave = d.wave ∧ (pageFull d).buf = d.buf := by
  unfold pageFull
  by_cases hc : d.pageCount = 1
  · have hz : (d.pageCount + 65535) % 65536 = 0 := by omega
    simp [hz, hc]
  · have hz : (d.pageCount + 65535) % 65536 = d.pageCount - 1 := by omega
    have hne : ¬ d.pageCount - 1 = 0 := by omega
    simp [hz, hne, hc]

/-- Witness for C5 with a countdown of 2: the countdown drops to 1 and
only the pending-page flag is raised. -/
theorem pageFull_decrements_and_flags_witness :
    (pageFull { dvr0 with pageCount := 2 }).pageCount = 1 ∧
    (pageFull { dvr0 with pageCount := 2 }).newPage = 1 := by
  have h := pageFull_decrements_and_flags { dvr0 with pageCount := 2 }
    (by norm_num) (by norm_num)
  exact ⟨h.1, (h.2.2.1 (by norm_num)).1⟩

/-- C8: from any state value outside {Stopped, Recording, Playing}, a
single control-loop iteration forces the state machine back to
Stopped (and changes nothing else but the stored button level). -/
theorem mainStep_invalid_to_stopped (d : Dvr) (pb : Nat)
    (h0 : d.state ≠ DVR_STOPPED) (h1 : d.state ≠ DVR_RECORDING)
    (h2 : d.state ≠ DVR_PLAYING) :
    mainStep d pb = some { d with state := DVR_STOPPED, pb_prev := pb } := by
  unfold mainStep
  simp [h0, h1, h2]

/-- Witness for C8 at the invalid state value 7. -/
theorem mainStep_invalid_to_stopped_witness :
    mainStep { dvr0 with state := 7 } 0 =
      some { { dvr0 with state := 7 } with state := DVR_STOPPED, pb_prev := 0 } :=
  mainStep_invalid_to_stopped { dvr0 with state := 7 } 0
    (by norm_num [dvr0, DVR_STOPPED]) (by norm_num [dvr0, DVR_RECORDING])
    (by norm_num [dvr0, DVR_PLAYING])

/-- C10: `wave_open` returns 0 whenever the header read reported an
error or transferred fewer than 44 bytes, returns exactly the header's
`dataSize` otherwise, and its result does not depend on the `f_open`
result (no other failure propagation). -/
theorem wave_open_empty_or_dataSize (oR r br ds : Nat) (hbr : br ≤ 44) :
    ((r ≠ 0 ∨ br < 44) → wave_open oR r br ds = 0) ∧
    (r = 0 → ¬ br < 44 → wave_open oR r br ds = ds) ∧
    (∀ oR2, wave_open oR2 r br ds = wave_open oR r br ds) := by
  unfold wave_open read_wave_header
  refine ⟨?_, ?_, fun _ => rfl⟩
  · intro h
    have hcond : r ≠ 0 ∨ br ≠ 44 := by omega
    rw [if_pos hcond]
  · intro h1 h2
    have hbe : br = 44 := by omega
    simp [h1, hbe]

/-- Witness for C10: a 30-byte short read yields an "empty" file. -/
theorem wave_open_empty_or_dataSize_witness : wave_open 3 1 30 99 = 0 :=
  (wave_open_empty_or_dataSize 3 1 30 99 (by norm_num)).1 (Or.inl (by norm_num))

-- The `pageEmpty` callback leaves the Timer1 pacing state and the
-- buffer cursors untouched.
lemma pageEmpty_pops (d : Dvr) : (pageEmpty d).pops = d.pops := by
  unfold pageEmpty
  by_cases hz : (d.pageCount + 65535) % 65536 = 0 <;> simp [hz]

lemma pageEmpty_oc (d : Dvr) : (pageEmpty d).overflow_counter = d.overflow_counter := by
  unfold pageEmpty
  by_cases hz : (d.pageCount + 65535) % 65536 = 0 <;> simp [hz]

lemma pageEmpty_or (d : Dvr) : (pageEmpty d).overflow_reset = d.overflow_reset := by
  unfold pageEmpty
  by_cases hz : (d.pageCount + 65535) % 65536 = 0 <;> simp [hz]

lemma pageEmpty_pwm (d : Dvr) : (pageEmpty d).pwmOn = d.pwmOn := by
  unfold pageEmpty
  by_cases hz : (d.pageCount + 65535) % 65536 = 0 <;> simp [hz]

-- Qualifying tick: the ISR dequeues exactly one sample and restarts
-- the divisor count.
lemma timer1ISR_pop (d : Dvr) (hp : d.pwmOn = true)
    (hq : (d.overflow_counter + 1) % 256 = d.overflow_reset) :
    (timer1ISR d).pops = d.pops + 1 ∧ (timer1ISR d).overflow_counter = 0 ∧
    (timer1ISR d).overflow_reset = d.overflow_reset ∧ (timer1ISR d).pwmOn = true := by
  unfold timer1ISR
  rcases hdq : dequeueStep d.buf with ⟨w, b, fired⟩
  cases fired
  · simp [hp, hq, hdq]
  · simp [hp, hq, hdq, pageEmpty_pops, pageEmpty_or, pageEmpty_pwm]

-- Non-qualifying tick: the ISR only increments the divisor count.
lemma timer1ISR_noop (d : Dvr) (hp : d.pwmOn = true)
    (hq : (d.overflow_counter + 1) % 256 ≠ d.overflow_reset) :
    timer1ISR d = { d with overflow_counter := (d.overflow_counter + 1) % 256 } := by
  unfold timer1ISR
  simp [hp, hq]

lemma timer1Run_count (k : Nat) : ∀ d : Dvr, d.pwmOn = true →
    d.overflow_counter < d.overflow_reset → d.overflow_reset < 256 →
    (timer1Run d k).pops = d.pops + (d.overflow_counter + k) / d.overflow_reset ∧
    (timer1Run d k).overflow_counter = (d.overflow_counter + k) % d.overflow_reset := by
  induction k with
  | zero =>
      intro d _ hlt _
      simp [timer1Run, Nat.div_eq_of_lt hlt, Nat.mod_eq_of_lt hlt]
  | succ k ih =>
      intro d hp hlt hN
      have hrun : timer1Run d (k + 1) = timer1Run (timer1ISR d) k := rfl
      have h256 : (d.overflow_counter + 1) % 256 = d.overflow_counter + 1 :=
        Nat.mod_eq_of_lt (by omega)
      by_cases hq : (d.overflow_counter + 1) % 256 = d.overflow_reset
      · obtain ⟨hpops, hoc, hor, hpwm⟩ := timer1ISR_pop d hp hq
        have hoc1 : d.overflow_counter + 1 = d.overflow_reset := by omega
        have hpos : 0 < d.overflow_reset := by omega
        obtain ⟨ih1, ih2⟩ := ih (timer1ISR d) hpwm
          (by rw [hoc, hor]; omega) (by rw [hor]; omega)
        rw [hrun] at *
        constructor
        · rw [ih1, hpops, hoc, hor]
          have hnum : d.overflow_counter + (k + 1) = k + d.overflow_reset := by omega
          rw [hnum, Nat.add_div_right _ hpos]
          have hz : (0 : Nat) + k = k := by omega
          rw [hz]
          omega
        · rw [ih2, hoc, hor]
          have hnum : d.overflow_counter + (k + 1) = k + d.overflow_reset := by omega
          rw [hnum, Nat.add_mod_right]
          have hz : (0 : Nat) + k = k := by omega
          rw [hz]
      · have hstep := timer1ISR_noop d hp hq
        have hlt' : d.overflow_counter + 1 < d.overflow_reset := by omega
        obtain ⟨ih1, ih2⟩ := ih { d with overflow_counter := (d.overflow_counter + 1) % 256 }
          (by simpa using hp) (by simpa [h256] using hlt') hN
        rw [hrun, hstep, ih1, ih2]
        have hnum : (d.overflow_counter + 1) % 256 + k = d.overflow_counter + (k + 1) := by
          omega
        simp only [hnum]
        exact ⟨trivial, trivial⟩

/-- C9: over `k` Timer1 ticks from a zeroed divisor count with divisor
`N = overflow_reset` (0 < N < 256), the ISR dequeues a sample and
drives `OCR1B` exactly `⌊k / N⌋` times, the divisor count ends at
`k % N`, and a non-qualifying tick changes nothing but the divisor
count. -/
theorem timer1_pops_every_Nth_tick (d : Dvr) (k : Nat) (hp : d.pwmOn = true)
    (h0 : d.overflow_counter = 0) (hN : 0 < d.overflow_reset)
    (hB : d.overflow_reset < 256) :
    (timer1Run d k).pops = d.pops + k / d.overflow_reset ∧
    (timer1Run d k).overflow_counter = k % d.overflow_reset ∧
    (∀ e : Dvr, e.pwmOn = true →
      (e.overflow_counter + 1) % 256 ≠ e.overflow_reset →
      timer1ISR e = { e with overflow_counter := (e.overflow_counter + 1) % 256 }) := by
  obtain ⟨h1, h2⟩ := timer1Run_count k d hp (by omega) hB
  rw [h0] at h1 h2
  have hz : (0 : Nat) + k = k := by omega
  rw [hz] at h1 h2
  exact ⟨h1, h2, fun e he hq => timer1ISR_noop e he hq⟩

/-- Witness for C9: 5 ticks at the default divisor 2 produce 2 dequeues
and leave the count at 1. -/
theorem timer1_pops_every_Nth_tick_witness :
    (timer1Run dvrPlay 5).pops = dvrPlay.pops + 5 / dvrPlay.overflow_reset ∧
    (timer1Run dvrPlay 5).overflow_counter = 5 % dvrPlay.overflow_reset := by
  have h := timer1_pops_every_Nth_tick dvrPlay 5 rfl rfl
    (by norm_num [dvrPlay, dvr0]) (by norm_num [dvrPlay, dvr0])
  exact ⟨h.1, h.2.1⟩

/-- C2 (amended): on a start-playback edge from Stopped, the
orchestrator sets the page countdown from the `countpage` counter left
by the most recent recording session, discarding the sample count
reported by the opened stream's header; the priming bulk read requests
1024 bytes (both pages) and each subsequent page read requests 512
bytes; for a session with `countpage` = 2, playback issues the priming
read, then one 512-byte read, then transitions to Stopped without
requesting a third. -/
-- Splitting a run of Timer1 ticks.
lemma timer1Run_add (a : Nat) : ∀ (b : Nat) (d : Dvr),
    timer1Run d (a + b) = timer1Run (timer1Run d a) b := by
  induction a with
  | zero => intro b d; rw [Nat.zero_add]; rfl
  | succ a ih =>
      intro b d
      have h : a + 1 + b = (a + b) + 1 := by omega
      rw [h]
      show timer1Run (timer1ISR d) (a + b) = timer1Run (timer1Run (timer1ISR d) a) b
      exact ih b (timer1ISR d)

-- Two ticks at divisor 2 from a zeroed count, not crossing a page
-- boundary: one noop tick, then one dequeue tick.
lemma timer1_two_noFire (d : Dvr) (hp : d.pwmOn = true)
    (hor : d.overflow_reset = 2) (hoc : d.overflow_counter = 0)
    (hb1 : d.buf.tail + 1 ≠ 512) (hb2 : d.buf.tail + 1 ≠ 1024) :
    timer1Run d 2 = { d with buf := { d.buf with tail := d.buf.tail + 1 },
                             ocr1b := d.buf.data d.buf.tail,
                             pops := d.pops + 1, overflow_counter := 0 } := by
  have h2 : timer1Run d 2 = timer1ISR (timer1ISR d) := rfl
  rw [h2, timer1ISR_noop d hp (by rw [hoc, hor]; omega)]
  unfold timer1ISR dequeueStep
  simp [hp, hoc, hor, hb1, hb2]

-- Two ticks at divisor 2 from a zeroed count, crossing a page boundary
-- with a countdown that does not reach zero: the dequeue fires
-- `pageEmpty`, which flags the pending page.
lemma timer1_fire_newPage (d : Dvr) (hp : d.pwmOn = true)
    (hor : d.overflow_reset = 2) (hoc : d.overflow_counter = 0)
    (hb : d.buf.tail + 1 = 512 ∨ d.buf.tail + 1 = 1024)
    (hpc : (d.pageCount + 65535) % 65536 ≠ 0) :
    timer1Run d 2 = { d with buf := { d.buf with tail := (d.buf.tail + 1) % 1024 },
                             ocr1b := d.buf.data d.buf.tail,
                             pops := d.pops + 1, overflow_counter := 0,
                             pageCount := (d.pageCount + 65535) % 65536,
                             newPage := 1 } := by
  have h2 : timer1Run d 2 = timer1ISR (timer1ISR d) := rfl
  rw [h2, timer1ISR_noop d hp (by rw [hoc, hor]; omega)]
  unfold timer1ISR dequeueStep pageEmpty
  rcases hb with hb | hb
  · have hne : d.buf.tail + 1 ≠ 1024 := by omega
    simp [hp, hoc, hor, hb, hne, hpc]
  · have hne : d.buf.tail + 1 ≠ 512 := by omega
    simp [hp, hoc, hor, hb, hne, hpc]

-- Same, but with a countdown reaching zero: `pageEmpty` flags
-- completion.
lemma timer1_fire_stop (d : Dvr) (hp : d.pwmOn = true)
    (hor : d.overflow_reset = 2) (hoc : d.overflow_counter = 0)
    (hb : d.buf.tail + 1 = 512 ∨ d.buf.tail + 1 = 1024)
    (hpc : (d.pageCount + 65535) % 65536 = 0) :
    timer1Run d 2 = { d with buf := { d.buf with tail := (d.buf.tail + 1) % 1024 },
                             ocr1b := d.buf.data d.buf.tail,
                             pops := d.pops + 1, overflow_counter := 0,
                             pageCount := 0, stop := 1 } := by
  have h2 : timer1Run d 2 = timer1ISR (timer1ISR d) := rfl
  rw [h2, timer1ISR_noop d hp (by rw [hoc, hor]; omega)]
  unfold timer1ISR dequeueStep pageEmpty
  rcases hb with hb | hb
  · have hne : d.buf.tail + 1 ≠ 1024 := by omega
    simp [hp, hoc, hor, hb, hne, hpc]
  · have hne : d.buf.tail + 1 ≠ 512 := by omega
    simp [hp, hoc, hor, hb, hne, hpc]

-- Draining `m` samples (2m ticks at divisor 2) without crossing a page
-- boundary: the read cursor advances by `m` and nothing else changes
-- but the pacing/output state.
lemma timer1_drain (m : Nat) : ∀ d : Dvr, d.pwmOn = true →
    d.overflow_reset = 2 → d.overflow_counter = 0 →
    (∀ i, i < m → d.buf.tail + i + 1 ≠ 512 ∧ d.buf.tail + i + 1 ≠ 1024) →
    timer1Run d (2 * m) =
      { d with buf := { d.buf with tail := d.buf.tail + m },
               ocr1b := if m = 0 then d.ocr1b else d.buf.data (d.buf.tail + m - 1),
               pops := d.pops + m, overflow_counter := 0 } := by
  induction m with
  | zero =>
      intro d hp hor hoc _
      show d = _
      obtain ⟨st, cp, pc, np, sp, oc, orr, pbp, ad, pw, ob, po, bu, wa⟩ := d
      obtain ⟨da, he, ta⟩ := bu
      simp only at hoc
      subst hoc
      simp
  | succ m ih =>
      intro d hp hor hoc hb
      have hsplit : 2 * (m + 1) = 2 + 2 * m := by omega
      rw [hsplit, timer1Run_add]
      obtain ⟨hb1, hb2⟩ := hb 0 (by omega)
      rw [timer1_two_noFire d hp hor hoc (by omega) (by omega)]
      have hstep := ih { d with buf := { d.buf with tail := d.buf.tail + 1 },
                                ocr1b := d.buf.data d.buf.tail,
                                pops := d.pops + 1, overflow_counter := 0 }
        (by simp [hp]) (by simp [hor]) rfl
        (by intro i hi
            have := hb (i + 1) (by omega)
            constructor <;> simp <;> omega)
      rw [hstep]
      by_cases hm : m = 0
      · subst hm
        simp
      · simp [hm]
        all_goals omega

-- Control-loop branch lemmas (one `mainStep` iteration under known
-- flags).
lemma mainStep_playing_newPage (e : Dvr) (pb : Nat)
    (hs : e.state = DVR_PLAYING) (hn : e.newPage ≠ 0) :
    mainStep e pb = some { e with pb_prev := pb, newPage := 0,
                                  buf := (buffer_writePage e.buf).2,
                                  wave := wave_read e.wave 512 } := by
  unfold mainStep
  rcases hbp : buffer_writePage e.buf with ⟨pg, b⟩
  simp [hs, hn, hbp, DVR_STOPPED, DVR_RECORDING, DVR_PLAYING]

lemma mainStep_playing_stop (e : Dvr) (pb : Nat)
    (hs : e.state = DVR_PLAYING) (hn : e.newPage = 0) (hst : e.stop ≠ 0) :
    mainStep e pb = some { e with pb_prev := pb, stop := 0,
                                  wave := wave_close e.wave, pwmOn := false,
                                  ocr1b := 0, state := DVR_STOPPED,
                                  overflow_reset := 2 } := by
  unfold mainStep
  simp [hs, hn, hst, DVR_STOPPED, DVR_RECORDING, DVR_PLAYING]

lemma mainStep_recording_newPage (e : Dvr) (pb : Nat)
    (hs : e.state = DVR_RECORDING)
    (hrise : (Nat.land pb (Nat.xor pb e.pb_prev)).testBit 6 = false)
    (hn : e.newPage ≠ 0) :
    mainStep e pb = some { e with pb_prev := pb,
                                  countpage := (e.countpage + 1) % 65536,
                                  newPage := 0,
                                  buf := (buffer_readPage e.buf).2,
                                  wave := wave_write e.wave 512 } := by
  unfold mainStep
  rcases hbp : buffer_readPage e.buf with ⟨pg, b⟩
  simp [hs, hn, hbp, hrise, DVR_STOPPED, DVR_RECORDING, DVR_PLAYING]

lemma mainStep_recording_stop (e : Dvr) (pb : Nat)
    (hs : e.state = DVR_RECORDING)
    (hrise : (Nat.land pb (Nat.xor pb e.pb_prev)).testBit 6 = false)
    (hn : e.newPage = 0) (hst : e.stop ≠ 0) :
    mainStep e pb = some { e with pb_prev := pb, stop := 0,
                                  buf := (buffer_readPage e.buf).2,
                                  wave := wave_close (wave_write e.wave 512),
                                  adcOn := false, state := DVR_STOPPED } := by
  unfold mainStep
  rcases hbp : buffer_readPage e.buf with ⟨pg, b⟩
  simp [hs, hn, hst, hbp, hrise, DVR_STOPPED, DVR_RECORDING, DVR_PLAYING]

lemma mainStep_recording_edge (e : Dvr) (pb : Nat)
    (hs : e.state = DVR_RECORDING)
    (hrise : (Nat.land pb (Nat.xor pb e.pb_prev)).testBit 6 = true)
    (hn : e.newPage = 0) (hst : e.stop = 0) :
    mainStep e pb = some { e with pb_prev := pb, pageCount := 1 } := by
  unfold mainStep
  simp [hs, hn, hst, hrise, DVR_STOPPED, DVR_RECORDING, DVR_PLAYING]

lemma bind_some_eq {α β : Type} (a : α) (f : α → Option β) :
    (some a).bind f = f a := rfl

-- Step-by-step evaluation of the playback scenario.
lemma playScenario_eval :
    playScenario.map (fun g => (g.state, g.wave.reads)) =
      some (DVR_STOPPED, [1024, 512]) := by
  have e0 : mainStep playBase 16 = some playD0 := rfl
  have eA : timer1Run playD0 1022 = playD1 := by
    have h := timer1_drain 511 playD0 rfl rfl rfl ?bnd
    case bnd =>
      intro i hi
      have ht : playD0.buf.tail = 0 := rfl
      rw [ht]
      exact ⟨by omega, by omega⟩
    exact h
  have eB : timer1Run playD1 2 = playD2 := by
    have h := timer1_fire_newPage playD1 rfl rfl rfl (Or.inl (by decide)) (by decide)
    exact h
  have eAB : timer1Run playD0 1024 = playD2 := by
    have h : timer1Run playD0 (1022 + 2) = playD2 := by
      rw [timer1Run_add, eA, eB]
    exact h
  have eC : mainStep playD2 0 = some playD3 := by
    have h := mainStep_playing_newPage playD2 0 rfl (by decide)
    exact h
  have eD : timer1Run playD3 1022 = playD4 := by
    have h := timer1_drain 511 playD3 rfl rfl rfl ?bnd2
    case bnd2 =>
      intro i hi
      have ht : playD3.buf.tail = 512 := rfl
      rw [ht]
      exact ⟨by omega, by omega⟩
    exact h
  have eE : timer1Run playD4 2 = playD5 := by
    have h := timer1_fire_stop playD4 rfl rfl rfl (Or.inr (by decide)) (by decide)
    exact h
  have eDE : timer1Run playD3 1024 = playD5 := by
    have h : timer1Run playD3 (1022 + 2) = playD5 := by
      rw [timer1Run_add, eD, eE]
    exact h
  have eF : mainStep playD5 0 = some playD6 := by
    have h := mainStep_playing_stop playD5 0 rfl rfl (by decide)
    exact h
  unfold playScenario
  rw [e0, bind_some_eq, eAB, eC, bind_some_eq, eDE, eF]
  rfl

/-- C2 (amended): on a start-playback edge from Stopped, the
orchestrator sets the page countdown from the `countpage` counter left
by the most recent recording session, discarding the sample count
reported by the opened stream's header; the priming bulk read requests
1024 bytes (both pages) and each subsequent page read requests 512
bytes; for a session with `countpage` = 2 (header reporting 768
samples), playback issues the priming read, then one 512-byte read,
then transitions to Stopped without requesting a third. -/
theorem playback_countdown_from_countpage (d : Dvr) :
    (playback d).pageCount = d.countpage ∧
    (playback d).wave.reads = d.wave.reads ++ [1024] ∧
    (playback d).newPage = 0 ∧
    (playback d).overflow_reset = 2 ∧
    (playback d).overflow_counter = 0 ∧
    (playback d).buf.head = 512 ∧
    (playback d).buf.tail = 0 ∧
    (playback d).pwmOn = true ∧
    (∀ (e : Dvr) (pb : Nat), e.state = DVR_PLAYING → e.newPage ≠ 0 →
      mainStep e pb = some { e with pb_prev := pb, newPage := 0,
                                    buf := (buffer_writePage e.buf).2,
                                    wave := wave_read e.wave 512 }) ∧
    playScenario.map (fun g => (g.state, g.wave.reads)) =
      some (DVR_STOPPED, [1024, 512]) :=
  ⟨rfl, rfl, rfl, rfl, rfl, rfl, rfl, rfl,
   fun e pb hs hn => mainStep_playing_newPage e pb hs hn, playScenario_eval⟩

/-- Counterexample to C2 as stated: two playback starts whose opened
streams report the same header sample count (768 = 1.5 × 512) derive
different page countdowns — the countdown is taken from `countpage`,
not from the header. -/
theorem playback_ignores_header_counterexample :
    dvrHdrA.wave.dataSize = dvrHdrB.wave.dataSize ∧
    wave_openReturn dvrHdrA.wave = wave_openReturn dvrHdrB.wave ∧
    (playback dvrHdrA).pageCount ≠ (playback dvrHdrB).pageCount := by
  refine ⟨rfl, rfl, ?_⟩
  decide

-- ADC-side single-conversion lemmas.
lemma adcISR_noFire (d : Dvr) (w : Nat) (ha : d.adcOn = true)
    (hb1 : d.buf.head + 1 ≠ 512) (hb2 : d.buf.head + 1 ≠ 1024) :
    adcISR d w = { d with buf := { d.buf with
      data := fun j => if j = d.buf.head then w else d.buf.data j,
      head := d.buf.head + 1 } } := by
  unfold adcISR queueStep
  simp [ha, hb1, hb2]

lemma adcISR_fire_newPage (d : Dvr) (w : Nat) (ha : d.adcOn = true)
    (hb : d.buf.head + 1 = 512 ∨ d.buf.head + 1 = 1024)
    (hpc : (d.pageCount + 65535) % 65536 ≠ 0) :
    adcISR d w = { d with
      buf := { d.buf with
        data := fun j => if j = d.buf.head then w else d.buf.data j,
        head := (d.buf.head + 1) % 1024 },
      pageCount := (d.pageCount + 65535) % 65536, newPage := 1 } := by
  unfold adcISR queueStep pageFull
  rcases hb with hb | hb
  · have hne : d.buf.head + 1 ≠ 1024 := by omega
    simp [ha, hb, hne, hpc]
  · have hne : d.buf.head + 1 ≠ 512 := by omega
    simp [ha, hb, hne, hpc]

lemma adcISR_fire_stop (d : Dvr) (w : Nat) (ha : d.adcOn = true)
    (hb : d.buf.head + 1 = 512 ∨ d.buf.head + 1 = 1024)
    (hpc : (d.pageCount + 65535) % 65536 = 0) :
    adcISR d w = { d with
      buf := { d.buf with
        data := fun j => if j = d.buf.head then w else d.buf.data j,
        head := (d.buf.head + 1) % 1024 },
      pageCount := 0, adcOn := false, stop := 1 } := by
  unfold adcISR queueStep pageFull
  rcases hb with hb | hb
  · have hne : d.buf.head + 1 ≠ 1024 := by omega
    simp [ha, hb, hne, hpc]
  · have hne : d.buf.head + 1 ≠ 512 := by omega
    simp [ha, hb, hne, hpc]

-- A burst of conversions that stays strictly inside a page: the write
-- cursor advances, no flag or counter changes.
lemma adcRun_noFire (ws : List Nat) : ∀ d : Dvr, d.adcOn = true →
    (∀ i, i < ws.length → d.buf.head + i + 1 ≠ 512 ∧ d.buf.head + i + 1 ≠ 1024) →
    (adcRun d ws).buf.head = d.buf.head + ws.length ∧
    (adcRun d ws).buf.tail = d.buf.tail ∧
    (adcRun d ws).pageCount = d.pageCount ∧
    (adcRun d ws).newPage = d.newPage ∧
    (adcRun d ws).stop = d.stop ∧
    (adcRun d ws).state = d.state ∧
    (adcRun d ws).adcOn = true ∧
    (adcRun d ws).wave = d.wave ∧
    (adcRun d ws).pb_prev = d.pb_prev := by
  induction ws with
  | nil =>
      intro d ha _
      simp [adcRun, ha]
  | cons w rest ih =>
      intro d ha hb
      have hq : adcRun d (w :: rest) = adcRun (adcISR d w) rest := rfl
      obtain ⟨hb1, hb2⟩ := hb 0 (by simp)
      rw [hq, adcISR_noFire d w ha (by omega) (by omega)]
      have hres := ih { d with buf := { d.buf with
          data := fun j => if j = d.buf.head then w else d.buf.data j,
          head := d.buf.head + 1 } } (by simpa using ha)
        (by intro i hi
            obtain ⟨t1, t2⟩ := hb (i + 1) (by simp only [List.length_cons]; omega)
            refine ⟨?_, ?_⟩ <;> simp <;> omega)
      obtain ⟨g1, g2, g3, g4, g5, g6, g7, g8, g9⟩ := hres
      refine ⟨?_, ?_, ?_, ?_, ?_, ?_, ?_, ?_, ?_⟩ <;>
        simp [g1, g2, g3, g4, g5, g6, g7, g8, g9] <;> omega

lemma buffer_readPage_snd_head (b : Buf) : (buffer_readPage b).2.head = b.head := by
  unfold buffer_readPage
  split <;> rfl

lemma buffer_readPage_snd_tail (b : Buf) :
    (buffer_readPage b).2.tail = if b.tail > 0 then 0 else 512 := by
  unfold buffer_readPage
  split <;> simp_all

-- Step-by-step evaluation of the recording scenario.
lemma recScenario_eval :
    recScenario.map
        (fun g => (g.state, g.wave.writes, g.wave.dataSize, g.wave.sampleCount)) =
      some (DVR_STOPPED, [512, 512], 1024, 1024) := by
  obtain ⟨p1h, p1t, p1pc, p1np, p1sp, p1st, p1adc, p1w, p1pb⟩ :=
    adcRun_noFire (List.replicate 511 7) recStart rfl
      (by intro i hi
          simp only [List.length_replicate] at hi
          refine ⟨?_, ?_⟩
          · show (0 : Nat) + i + 1 ≠ 512
            omega
          · show (0 : Nat) + i + 1 ≠ 1024
            omega)
  simp only [List.length_replicate] at p1h
  set A1 := adcRun recStart (List.replicate 511 7) with hA1
  clear_value A1
  have hfire1 := adcISR_fire_newPage A1 7 p1adc
    (Or.inl (by rw [p1h]; rfl))
    (by rw [p1pc]
        show (2 + 65535) % 65536 ≠ 0
        norm_num)
  set S1 := adcISR A1 7 with hS1
  clear_value S1
  have s1st : S1.state = DVR_RECORDING := by rw [hfire1]; exact p1st.trans rfl
  have s1np : S1.newPage = 1 := by rw [hfire1]
  have s1sp : S1.stop = 0 := by rw [hfire1]; exact p1sp.trans rfl
  have s1pb : S1.pb_prev = 0 := by rw [hfire1]; exact p1pb.trans rfl
  have s1adc : S1.adcOn = true := by rw [hfire1]; exact p1adc
  have s1head : S1.buf.head = 512 := by
    rw [hfire1]
    show (A1.buf.head + 1) % 1024 = 512
    rw [p1h]
    rfl
  have s1pc : S1.pageCount = 1 := by
    rw [hfire1]
    show (A1.pageCount + 65535) % 65536 = 1
    rw [p1pc]
    rfl
  have s1wave : S1.wave = A1.wave := by rw [hfire1]
  have h2 := mainStep_recording_newPage S1 0 s1st
    (by rw [s1pb]; rfl) (by rw [s1np]; norm_num)
  set S2 := { S1 with pb_prev := 0, countpage := (S1.countpage + 1) % 65536,
                      newPage := 0, buf := (buffer_readPage S1.buf).2,
                      wave := wave_write S1.wave 512 } with hS2
  have h2' : mainStep S1 0 = some S2 := by rw [h2, hS2]
  clear_value S2
  have s2adc : S2.adcOn = true := by rw [hS2]; exact s1adc
  have s2st : S2.state = DVR_RECORDING := by rw [hS2]; exact s1st
  have s2np : S2.newPage = 0 := by rw [hS2]
  have s2sp : S2.stop = 0 := by rw [hS2]; exact s1sp
  have s2pb : S2.pb_prev = 0 := by rw [hS2]
  have s2pc : S2.pageCount = 1 := by rw [hS2]; exact s1pc
  have s2wave : S2.wave = wave_write S1.wave 512 := by rw [hS2]
  have s2head : S2.buf.head = 512 := by
    rw [hS2]
    show (buffer_readPage S1.buf).2.head = 512
    rw [buffer_readPage_snd_head, s1head]
  obtain ⟨q1h, q1t, q1pc, q1np, q1sp, q1st, q1adc, q1w, q1pb⟩ :=
    adcRun_noFire (List.replicate 511 9) S2 s2adc
      (by intro i hi
          simp only [List.length_replicate] at hi
          rw [s2head]
          exact ⟨by omega, by omega⟩)
  simp only [List.length_replicate] at q1h
  set A2 := adcRun S2 (List.replicate 511 9) with hA2
  clear_value A2
  have hfire2 := adcISR_fire_stop A2 9 q1adc
    (Or.inr (by rw [q1h, s2head]))
    (by rw [q1pc, s2pc])
  set S3 := adcISR A2 9 with hS3
  clear_value S3
  have s3st : S3.state = DVR_RECORDING := by rw [hfire2]; exact q1st.trans s2st
  have s3np : S3.newPage = 0 := by rw [hfire2]; exact q1np.trans s2np
  have s3sp : S3.stop = 1 := by rw [hfire2]
  have s3pb : S3.pb_prev = 0 := by rw [hfire2]; exact q1pb.trans s2pb
  have s3wave : S3.wave = A2.wave := by rw [hfire2]
  have h4 := mainStep_recording_stop S3 0 s3st
    (by rw [s3pb]; rfl) s3np (by rw [s3sp]; norm_num)
  set S4 := { S3 with pb_prev := 0, stop := 0, buf := (buffer_readPage S3.buf).2,
                      wave := wave_close (wave_write S3.wave 512),
                      adcOn := false, state := DVR_STOPPED } with hS4
  have h4' : mainStep S3 0 = some S4 := by rw [h4, hS4]
  clear_value S4
  have hw4 : S4.wave = wave_close (wave_write (wave_write recStart.wave 512) 512) := by
    rw [hS4]
    show wave_close (wave_write S3.wave 512) = _
    rw [s3wave, q1w, s2wave, s1wave, p1w]
  have hst4 : S4.state = DVR_STOPPED := by rw [hS4]
  have hadc_unfold : ∀ (d : Dvr) (ws : List Nat), adcRun d ws = ws.foldl adcISR d :=
    fun _ _ => rfl
  have hsingle : ∀ (d : Dvr) (w : Nat), List.foldl adcISR d [w] = adcISR d w :=
    fun _ _ => rfl
  have h1 : adcRun recStart (List.replicate 512 7) = S1 := by
    rw [hS1, hA1]
    rw [show List.replicate 512 7 = List.replicate 511 7 ++ [7] from
      List.replicate_succ' 511 7]
    simp only [hadc_unfold]
    rw [List.foldl_append, hsingle]
  have h3 : adcRun S2 (List.replicate 512 9) = S3 := by
    rw [hS3, hA2]
    rw [show List.replicate 512 9 = List.replicate 511 9 ++ [9] from
      List.replicate_succ' 511 9]
    simp only [hadc_unfold]
    rw [List.foldl_append, hsingle]
  unfold recScenario
  rw [h1, h2', bind_some_eq, h3, h4']
  show some (S4.state, S4.wave.writes, S4.wave.dataSize, S4.wave.sampleCount) =
    some (DVR_STOPPED, [512, 512], 1024, 1024)
  rw [hw4, hst4]
  rfl

/-- C6: a recording session started with a page-countdown limit of 2
into which exactly 2 × 512 samples are pushed performs exactly two
512-byte bulk page writes to storage, transitions automatically to
Stopped, and the finalised header reports a sample count of
1024 = 2 × (capacity/2). -/
theorem recording_two_page_session :
    recScenario.map
        (fun g => (g.state, g.wave.writes, g.wave.dataSize, g.wave.sampleCount)) =
      some (DVR_STOPPED, [512, 512], 1024, 1024) := recScenario_eval

-- Supporting lemmas for the early-stop claim.
lemma adcRun_append_single (d : Dvr) (ws : List Nat) (w : Nat) :
    adcRun d (ws ++ [w]) = adcISR (adcRun d ws) w := by
  unfold adcRun
  rw [List.foldl_append]
  rfl

lemma rise_zero (e : Nat) : (Nat.land 0 (Nat.xor 0 e)).testBit 6 = false := by
  show ((0 : Nat) &&& Nat.xor 0 e).testBit 6 = false
  simp

lemma wave_write_writes (v : Wave) (c : Nat) :
    (wave_write v c).writes = v.writes ++ [c] := rfl

lemma wave_close_writes (v : Wave) : (wave_close v).writes = v.writes := by
  unfold wave_close finalise_wave_header
  split <;> rfl

/-- C7: an early-stop user-input edge arriving mid-page during
recording forces the page countdown to 1 and never truncates the
in-progress page: the edge iteration performs no storage write and
stays in Recording; filling the rest of the page performs no storage
write either, but stops the ADC and raises the completion flag; the
next control-loop iteration then flushes the full page to storage
exactly once via the normal completion path and transitions to
Stopped. -/
theorem recording_early_stop_flushes_full_page (d : Dvr) (pb : Nat)
    (ws : List Nat) (w : Nat)
    (hst : d.state = DVR_RECORDING) (ha : d.adcOn = true)
    (hnp : d.newPage = 0) (hsp : d.stop = 0)
    (hm1 : 0 < d.buf.head) (hfill : d.buf.head + ws.length + 1 = 512)
    (hedge : (Nat.land pb (Nat.xor pb d.pb_prev)).testBit 6 = true) :
    mainStep d pb = some { d with pageCount := 1, pb_prev := pb } ∧
    (adcRun { d with pageCount := 1, pb_prev := pb } (ws ++ [w])).wave = d.wave ∧
    (adcRun { d with pageCount := 1, pb_prev := pb } (ws ++ [w])).state = DVR_RECORDING ∧
    (adcRun { d with pageCount := 1, pb_prev := pb } (ws ++ [w])).stop = 1 ∧
    (adcRun { d with pageCount := 1, pb_prev := pb } (ws ++ [w])).adcOn = false ∧
    (mainStep (adcRun { d with pageCount := 1, pb_prev := pb } (ws ++ [w])) 0).map
        (fun g => (g.state, g.wave.writes)) =
      some (DVR_STOPPED, d.wave.writes ++ [512]) := by
  have hedgeStep := mainStep_recording_edge d pb hst hedge hnp hsp
  set dE : Dvr := { d with pageCount := 1, pb_prev := pb } with hdE
  have eadc : dE.adcOn = true := by rw [hdE]; exact ha
  have ehead : dE.buf.head = d.buf.head := by rw [hdE]
  have epc : dE.pageCount = 1 := by rw [hdE]
  have enp : dE.newPage = 0 := by rw [hdE]; exact hnp
  have est : dE.state = DVR_RECORDING := by rw [hdE]; exact hst
  have ewv : dE.wave = d.wave := by rw [hdE]
  obtain ⟨rh, rt, rpc, rnp, rsp, rst, radc, rwv, rpb⟩ :=
    adcRun_noFire ws dE eadc
      (by intro i hi
          rw [ehead]
          constructor <;> omega)
  rw [adcRun_append_single]
  have hfire := adcISR_fire_stop (adcRun dE ws) w radc
    (Or.inl (by rw [rh, ehead]; omega))
    (by rw [rpc, epc])
  rw [hfire]
  set F : Dvr := { adcRun dE ws with
    buf := { (adcRun dE ws).buf with
      data := fun j => if j = (adcRun dE ws).buf.head then w
              else (adcRun dE ws).buf.data j,
      head := ((adcRun dE ws).buf.head + 1) % 1024 },
    pageCount := 0, adcOn := false, stop := 1 } with hF
  have fwv : F.wave = d.wave := by rw [hF]; exact rwv.trans ewv
  have fst : F.state = DVR_RECORDING := by rw [hF]; exact rst.trans est
  have fnp : F.newPage = 0 := by rw [hF]; exact rnp.trans enp
  have fsp : F.stop = 1 := by rw [hF]
  have fadc : F.adcOn = false := by rw [hF]
  have hlast := mainStep_recording_stop F 0 fst (rise_zero F.pb_prev)
    fnp (by rw [fsp]; norm_num)
  refine ⟨hedgeStep, fwv, fst, fsp, fadc, ?_⟩
  rw [hlast]
  show some ((DVR_STOPPED : Nat), (wave_close (wave_write F.wave 512)).writes) =
    some (DVR_STOPPED, d.wave.writes ++ [512])
  rw [wave_close_writes, wave_write_writes, fwv]

/-- Witness for C7: a stop edge (PF6) arriving 100 samples into a page,
with 412 samples left to fill it. -/
theorem recording_early_stop_flushes_full_page_witness :
    mainStep recMid 64 = some { recMid with pageCount := 1, pb_prev := 64 } ∧
    (adcRun { recMid with pageCount := 1, pb_prev := 64 }
        (List.replicate 411 5 ++ [5])).wave = recMid.wave ∧
    (adcRun { recMid with pageCount := 1, pb_prev := 64 }
        (List.replicate 411 5 ++ [5])).state = DVR_RECORDING ∧
    (adcRun { recMid with pageCount := 1, pb_prev := 64 }
        (List.replicate 411 5 ++ [5])).stop = 1 ∧
    (adcRun { recMid with pageCount := 1, pb_prev := 64 }
        (List.replicate 411 5 ++ [5])).adcOn = false ∧
    (mainStep (adcRun { recMid with pageCount := 1, pb_prev := 64 }
        (List.replicate 411 5 ++ [5])) 0).map
        (fun g => (g.state, g.wave.writes)) =
      some (DVR_STOPPED, recMid.wave.writes ++ [512]) :=
  recording_early_stop_flushes_full_page recMid 64 (List.replicate 411 5) 5
    rfl rfl rfl rfl (by norm_num [recMid])
    (by simp only [List.length_replicate]
        show (100 : Nat) + 411 + 1 = 512
        norm_num)
    rfl
